import Mathlib

/-!
Shallow embedding of the `TrainMetricsRecorder` fastai callback from
`image_classification/utils_ic/fastai_utils.py`.

Modelling conventions:
* Tensors that have been moved to host memory (`.cpu()`) are modelled by their
  flattened data, a `List ℚ`.  `torch.stack` of a list of equal-shaped tensors
  produces a tensor whose row-major flattened data is the concatenation of the
  inputs' flattened data, so it is modelled by `List.flatten`.
* Python operations that can raise are modelled in `Except String`, the error
  string recording the Python exception raised (`AssertionError`, `IndexError`
  on list indexing, `ValueError` from `min()`/`max()` of an empty sequence, and
  the explicit `ValueError("No records to plot.")`).
* Values placed in the stats row are either Python `None`, `int`, or other
  numerics (floats / 0-dim tensors); they are modelled by the inductive `Stat`.
* Matplotlib rendering is out of scope; `plot` is modelled by the data it
  computes for each panel: the x-axis bounds and y-axis bounds.
-/

namespace TrainMetricsRecorder

/-- A tensor moved to host memory, modelled by its flattened data. -/
abbrev Tensor := List ℚ

/-- Decidable equality for `Except`, used to evaluate concrete runs. -/
instance exceptDecidableEq {ε α : Type _} [DecidableEq ε] [DecidableEq α] :
    DecidableEq (Except ε α) := fun x y =>
  match x, y with
  | .error a, .error b => decidable_of_iff (a = b) (by simp)
  | .error _, .ok _ => .isFalse (by simp)
  | .ok _, .error _ => .isFalse (by simp)
  | .ok a, .ok b => decidable_of_iff (a = b) (by simp)

/-- Construction-time configuration of the recorder (`__init__` stores
`n_batch`, `show_graph`, `silent` on `self`). -/
structure Config where
  n_batch : Option ℤ
  show_graph : Bool
  silent : Bool
deriving DecidableEq

/-- Python truthiness of the optional `n_batch` argument: both `None` and `0`
are falsy, every other integer is truthy. -/
def truthy : Option ℤ → Bool
  | none => false
  | some z => decide (z ≠ 0)

/-- `__init__`: `if n_batch: assert n_batch > 0`, then the three fields are
stored.  A failed `assert` raises `AssertionError`. -/
def init (n_batch : Option ℤ) (show_graph silent : Bool) : Except String Config :=
  if truthy n_batch then
    if n_batch.getD 0 > 0 then Except.ok ⟨n_batch, show_graph, silent⟩
    else Except.error "AssertionError"
  else Except.ok ⟨n_batch, show_graph, silent⟩

/-- `self.has_metrics = metrics and len(metrics) > 0` from `on_train_begin`. -/
def has_metrics_of {α : Type _} (metrics : List α) : Bool :=
  decide (0 < metrics.length)

/-- The per-metric column names built by the loop in `on_train_begin`:
for each metric name `m`, append `train_<m>` and, if validation data exists,
`valid_<m>`. -/
def metric_names_cols (has_val : Bool) : List String → List String
  | [] => []
  | m :: rest =>
      (if has_val then ["train_" ++ m, "valid_" ++ m] else ["train_" ++ m]) ++
        metric_names_cols has_val rest

/-- `self.names` as built by `on_train_begin`: `epoch`, `train_loss`,
optionally `valid_loss`, the per-metric columns, then `time`. -/
def on_train_begin_names (has_val : Bool) (metrics_names : List String) : List String :=
  (["epoch", "train_loss"] ++ (if has_val then ["valid_loss"] else [])) ++
    metric_names_cols has_val metrics_names ++ ["time"]

/-- Per-epoch accumulation state: `self.y` (targets) and `self.out` (outputs),
reset by `on_epoch_begin`. -/
structure EpochState where
  y : List Tensor
  out : List Tensor
deriving DecidableEq

/-- `on_epoch_begin` resets both accumulation buffers to empty lists. -/
def on_epoch_begin : EpochState := ⟨[], []⟩

/-- `on_batch_end`: appends `last_target.cpu()` and `last_output.cpu()` to the
buffers exactly when `train and (n_batch is None or n_batch > num_batch) and
self.has_metrics`. -/
def on_batch_end (n_batch : Option ℕ) (has_metrics : Bool) (train : Bool)
    (num_batch : ℕ) (last_target last_output : Tensor) (s : EpochState) : EpochState :=
  if train &&
      (match n_batch with | none => true | some k => decide (num_batch < k)) &&
      has_metrics then
    ⟨s.y ++ [last_target], s.out ++ [last_output]⟩
  else s

/-- An epoch of `n` batch-end callbacks with batch indices `0, 1, ..., n-1`,
starting from the state left by `on_epoch_begin`. -/
def runBatches (n_batch : Option ℕ) (has_metrics train : Bool)
    (tgts outs : ℕ → Tensor) : ℕ → EpochState
  | 0 => on_epoch_begin
  | n + 1 =>
      on_batch_end n_batch has_metrics train n (tgts n) (outs n)
        (runBatches n_batch has_metrics train tgts outs n)

/-- Run-level metric history: `self.train_metrics` and `self.valid_metrics`,
reset to `[]` by `on_train_begin`. -/
structure RunState where
  train_metrics : List (List ℚ)
  valid_metrics : List (List ℚ)
deriving DecidableEq

/-- A value appended to the stats row: Python `None`, an `int`, or any other
numeric (float or 0-dim tensor), matching the three cases tested by
`_format_stats`. -/
inductive Stat where
  | none : Stat
  | int : ℤ → Stat
  | float : ℚ → Stat
deriving DecidableEq

/-- `torch.stack` over accumulated host tensors: the flattened data of the
stacked tensor is the concatenation of the batches' flattened data. -/
def torch_stack (ts : List Tensor) : Tensor := ts.flatten

/-- Python list indexing `l[i]`, raising `IndexError` when out of range. -/
def pyGet (l : List ℚ) (i : ℕ) : Except String ℚ :=
  match l[i]? with
  | some v => Except.ok v
  | none => Except.error "IndexError: list index out of range"

/-- The head of the stats row built by `on_epoch_end`: `[epoch, smooth_loss]`,
then `last_metrics[0]` (the validation loss) when validation data exists. -/
def statsHead (has_val : Bool) (epoch : ℤ) (smooth_loss : ℚ)
    (last_metrics : List ℚ) : Except String (List Stat) :=
  if has_val then
    match pyGet last_metrics 0 with
    | Except.error e => Except.error e
    | Except.ok v => Except.ok [Stat.int epoch, Stat.float smooth_loss, Stat.float v]
  else Except.ok [Stat.int epoch, Stat.float smooth_loss]

/-- The `for i in range(len(metrics))` loop of `on_epoch_end`: for each metric
index, append `tr_lm[i]` and, when validation data exists, `vl_lm[i]`. -/
def statsLoop (has_val : Bool) (tr_lm vl_lm : List ℚ) : ℕ → Except String (List Stat)
  | 0 => Except.ok []
  | n + 1 =>
      match statsLoop has_val tr_lm vl_lm n with
      | Except.error e => Except.error e
      | Except.ok acc =>
          match pyGet tr_lm n with
          | Except.error e => Except.error e
          | Except.ok tv =>
              if has_val then
                match pyGet vl_lm n with
                | Except.error e => Except.error e
                | Except.ok vv => Except.ok (acc ++ [Stat.float tv, Stat.float vv])
              else Except.ok (acc ++ [Stat.float tv])

/-- `on_epoch_end`: start the stats row with epoch and losses; when metrics are
configured, evaluate each metric function on the stacked accumulated outputs
and targets (`tr_lm`), append `tr_lm` to `self.train_metrics`, take the
host-computed validation metrics `vl_lm = last_metrics[1:]` and append them to
`self.valid_metrics` when validation data exists, then extend the stats row.
Returns the updated history together with the stats row. -/
def on_epoch_end (has_metrics has_val : Bool) (epoch : ℤ) (smooth_loss : ℚ)
    (metrics : List (Tensor → Tensor → ℚ)) (last_metrics : List ℚ)
    (es : EpochState) (rs : RunState) : Except String (RunState × List Stat) :=
  match statsHead has_val epoch smooth_loss last_metrics with
  | Except.error e => Except.error e
  | Except.ok stats1 =>
      if has_metrics then
        let tr_lm := metrics.map fun m_fn => m_fn (torch_stack es.out) (torch_stack es.y)
        let vl_lm := last_metrics.tail
        let rs2 : RunState :=
          ⟨rs.train_metrics ++ [tr_lm],
            if has_val then rs.valid_metrics ++ [vl_lm] else rs.valid_metrics⟩
        match statsLoop has_val tr_lm vl_lm metrics.length with
        | Except.error e => Except.error e
        | Except.ok statsM => Except.ok (rs2, stats1 ++ statsM)
      else Except.ok (rs, stats1)

/-- A run of `e` epochs: starting from the empty history set up by
`on_train_begin`, perform `on_epoch_end` after each epoch `0, ..., e-1`, with
`has_metrics` computed from the metric-function list as in `on_train_begin`.
`ess`, `lms` and `losses` give each epoch's accumulated buffers, host-supplied
`last_metrics` and smoothed training loss. -/
def runEpochs (has_val : Bool) (metrics : List (Tensor → Tensor → ℚ))
    (ess : ℕ → EpochState) (lms : ℕ → List ℚ) (losses : ℕ → ℚ) :
    ℕ → Except String RunState
  | 0 => Except.ok ⟨[], []⟩
  | e + 1 =>
      match runEpochs has_val metrics ess lms losses e with
      | Except.error err => Except.error err
      | Except.ok rs =>
          match on_epoch_end (has_metrics_of metrics) has_val (e : ℤ) (losses e)
              metrics (lms e) (ess e) rs with
          | Except.error err => Except.error err
          | Except.ok p => Except.ok p.1

/-- Round to the nearest integer, ties to even, as Python `format` does when
rendering a value with `f"{x:.6f}"`. -/
def roundHalfEven (q : ℚ) : ℤ :=
  if q - (⌊q⌋ : ℚ) < 1 / 2 then ⌊q⌋
  else if 1 / 2 < q - (⌊q⌋ : ℚ) then ⌊q⌋ + 1
  else if ⌊q⌋ % 2 = 0 then ⌊q⌋ else ⌊q⌋ + 1

/-- Pad a decimal string with leading zeros up to width `w`. -/
def padZeros (s : String) (w : ℕ) : String :=
  String.mk (List.replicate (w - s.length) '0') ++ s

/-- Python `f"{q:.6f}"`: fixed-point rendering with exactly six digits after
the decimal point. -/
def formatFixed6 (q : ℚ) : String :=
  (if q < 0 then "-" else "") ++
    toString ((roundHalfEven (q * 1000000)).natAbs / 1000000) ++ "." ++
    padZeros (toString ((roundHalfEven (q * 1000000)).natAbs % 1000000)) 6

/-- The per-value formatting rule of `_format_stats`:
`'#na#' if stat is None else str(stat) if isinstance(stat, int) else
f"{stat:.6f}"`. -/
def formatStat : Stat → String
  | Stat.none => "#na#"
  | Stat.int z => toString z
  | Stat.float q => formatFixed6 q

/-- `_format_stats`: format each stat paired with a column name by `zip`, then
append the formatted elapsed epoch time as the final column. -/
def format_stats (names : List String) (stats : List Stat) (elapsed : String) :
    List String :=
  ((names.zip stats).map fun p => formatStat p.2) ++ [elapsed]

/-- Python builtin `min` over a list, raising `ValueError` when empty. -/
def listMin : List ℚ → Except String ℚ
  | [] => Except.error "ValueError: min() arg is an empty sequence"
  | x :: xs => Except.ok (xs.foldl min x)

/-- Python builtin `max` over a list, raising `ValueError` when empty. -/
def listMax : List ℚ → Except String ℚ
  | [] => Except.error "ValueError: max() arg is an empty sequence"
  | x :: xs => Except.ok (xs.foldl max x)

/-- `x_bounds = (-0.05, self.n_epochs - 0.95)` from `plot`. -/
def x_bounds (n_epochs : ℕ) : ℚ × ℚ := (-0.05, (n_epochs : ℚ) - 0.95)

/-- `y_bounds` from `plot`:
`(min(-0.05, min(tr_m), min(vl_m)) - 0.05, max(1.05, max(tr_m), max(vl_m)) + 0.05)`,
with the four reductions evaluated in Python's left-to-right order. -/
def y_bounds (tr_m vl_m : List ℚ) : Except String (ℚ × ℚ) :=
  match listMin tr_m with
  | Except.error e => Except.error e
  | Except.ok mtr =>
      match listMin vl_m with
      | Except.error e => Except.error e
      | Except.ok mvl =>
          match listMax tr_m with
          | Except.error e => Except.error e
          | Except.ok str =>
              match listMax vl_m with
              | Except.error e => Except.error e
              | Except.ok svl =>
                  Except.ok (min (-0.05) (min mtr mvl) - 0.05,
                    max 1.05 (max str svl) + 0.05)

/-- The series plotted in panel `i`: `[met[i] for met in hist]`. -/
def panelSeries (hist : List (List ℚ)) (i : ℕ) : Except String (List ℚ) :=
  match hist with
  | [] => Except.ok []
  | met :: rest =>
      match pyGet met i with
      | Except.error e => Except.error e
      | Except.ok v =>
          match panelSeries rest i with
          | Except.error e => Except.error e
          | Except.ok vs => Except.ok (v :: vs)

/-- One iteration of the per-axes loop in `plot`: compute the training series,
the validation series (empty when `len(self.valid_metrics) == 0`), and the two
axis bounds of panel `i`. -/
def plotPanel (train_metrics valid_metrics : List (List ℚ)) (n_epochs : ℕ)
    (i : ℕ) : Except String ((ℚ × ℚ) × (ℚ × ℚ)) :=
  match panelSeries train_metrics i with
  | Except.error e => Except.error e
  | Except.ok tr_m =>
      match
        (if 0 < valid_metrics.length then panelSeries valid_metrics i
         else Except.ok []) with
      | Except.error e => Except.error e
      | Except.ok vl_m =>
          match y_bounds tr_m vl_m with
          | Except.error e => Except.error e
          | Except.ok yb => Except.ok (x_bounds n_epochs, yb)

/-- Map a fallible panel computation over a list of panel indices, propagating
the first error, as the `for i, ax in enumerate(self.axes)` loop does. -/
def mapE {α : Type _} (f : ℕ → Except String α) : List ℕ → Except String (List α)
  | [] => Except.ok []
  | i :: rest =>
      match f i with
      | Except.error e => Except.error e
      | Except.ok v =>
          match mapE f rest with
          | Except.error e => Except.error e
          | Except.ok vs => Except.ok (v :: vs)

/-- `plot`: raise `ValueError("No records to plot.")` when no epoch of training
metrics has been recorded; assert the per-epoch metric counts match when
validation metrics exist; then compute every panel (one per metric, i.e. per
entry of `train_metrics[0]`). -/
def plot (train_metrics valid_metrics : List (List ℚ)) (n_epochs : ℕ) :
    Except String (List ((ℚ × ℚ) × (ℚ × ℚ))) :=
  if train_metrics.length = 0 then Except.error "ValueError: No records to plot."
  else if 0 < valid_metrics.length ∧
      (train_metrics.headD []).length ≠ (valid_metrics.headD []).length then
    Except.error "AssertionError"
  else
    mapE (plotPanel train_metrics valid_metrics n_epochs)
      (List.range (train_metrics.headD []).length)

/-- `last_train_metrics`: `self.train_metrics[-1]`, raising `IndexError` on an
empty history. -/
def last_train_metrics (train_metrics : List (List ℚ)) : Except String (List ℚ) :=
  match train_metrics.getLast? with
  | some v => Except.ok v
  | none => Except.error "IndexError: list index out of range"

/-- `last_valid_metrics`: `self.valid_metrics[-1]`, raising `IndexError` on an
empty history. -/
def last_valid_metrics (valid_metrics : List (List ℚ)) : Except String (List ℚ) :=
  match valid_metrics.getLast? with
  | some v => Except.ok v
  | none => Except.error "IndexError: list index out of range"

/-! Helper lemmas. -/

lemma metric_names_cols_length (hv : Bool) (ms : List String) :
    (metric_names_cols hv ms).length = ms.length * (if hv then 2 else 1) := by
  induction ms with
  | nil => simp [metric_names_cols]
  | cons m rest ih =>
      cases hv
      · simp [metric_names_cols, ih]
      · simp [metric_names_cols, ih]
        ring

/-! Claim theorems. -/

/-- Claim C1: after `n` batch-end callbacks in one epoch with batch indices
`0..n-1`, both per-epoch accumulation buffers have length `min n k` when a
batch cap `k` is configured and metrics are configured, length `n` when no cap
is configured and metrics are configured, and length `0` when metrics are not
configured or the phase flag indicates validation. -/
theorem accumulation_buffer_lengths (n_batch : Option ℕ) (hm tr : Bool)
    (tgts outs : ℕ → Tensor) (n : ℕ) :
    (runBatches n_batch hm tr tgts outs n).y.length =
      (if hm && tr then (match n_batch with | none => n | some k => min n k) else 0) ∧
    (runBatches n_batch hm tr tgts outs n).out.length =
      (if hm && tr then (match n_batch with | none => n | some k => min n k) else 0) := by
  induction n with
  | zero =>
      cases n_batch <;> cases hm <;> cases tr <;>
        simp [runBatches, on_epoch_begin]
  | succ n ih =>
      obtain ⟨ih1, ih2⟩ := ih
      cases n_batch with
      | none =>
          cases hm <;> cases tr <;> simp_all [runBatches, on_batch_end]
      | some k =>
          cases hm <;> cases tr <;> simp_all [runBatches, on_batch_end]
          by_cases h : n < k
          · simp only [if_pos h, List.length_append, List.length_singleton]
            constructor <;> omega
          · simp only [if_neg h]
            constructor <;> omega

/-- Claim C4 (code bug in `__init__`): the guard `if n_batch:` uses Python
truthiness, so the assertion `assert n_batch > 0` is skipped for `n_batch = 0`
and construction succeeds, contrary to eager rejection of every non-positive
cap; a negative cap is rejected, and `None` or a positive cap is accepted. -/
theorem init_cap_validation :
    init (some 0) false false = Except.ok ⟨some 0, false, false⟩ ∧
    init (some (-1)) false false = Except.error "AssertionError" ∧
    init (some 1) false false = Except.ok ⟨some 1, false, false⟩ ∧
    init none false false = Except.ok ⟨none, false, false⟩ := by
  refine ⟨by decide, by decide, by decide, by decide⟩

/-- Claim C5: after `on_train_begin` with `m` configured metric functions the
column-name list has length `2 + has_val + m * (2 or 1) + 1` and consists of
`epoch`, `train_loss`, optionally `valid_loss`, then per metric `train_<name>`
and optionally `valid_<name>`, then `time`. -/
theorem column_names (hv : Bool) (ms : List String) :
    (on_train_begin_names hv ms).length =
      2 + (if hv then 1 else 0) + ms.length * (if hv then 2 else 1) + 1 ∧
    on_train_begin_names hv ms =
      ["epoch", "train_loss"] ++ (if hv then ["valid_loss"] else []) ++
        metric_names_cols hv ms ++ ["time"] ∧
    (on_train_begin_names hv ms).take 2 = ["epoch", "train_loss"] ∧
    (on_train_begin_names hv ms).getLast? = some "time" := by
  refine ⟨?_, ?_, ?_, ?_⟩
  · cases hv <;> simp [on_train_begin_names, metric_names_cols_length] <;> omega
  · simp [on_train_begin_names]
  · cases hv <;> rfl
  · exact List.getLast?_concat _

/-- Claim C9: `last_train_metrics` and `last_valid_metrics` return the most
recently appended per-epoch metric vector when the respective history is
non-empty, and raise an out-of-range `IndexError` when it is empty. -/
theorem last_metrics_access :
    (∀ (l : List (List ℚ)) (x : List ℚ),
      last_train_metrics (l ++ [x]) = Except.ok x) ∧
    last_train_metrics [] = Except.error "IndexError: list index out of range" ∧
    (∀ (l : List (List ℚ)) (x : List ℚ),
      last_valid_metrics (l ++ [x]) = Except.ok x) ∧
    last_valid_metrics [] = Except.error "IndexError: list index out of range" := by
  refine ⟨fun l x => ?_, rfl, fun l x => ?_, rfl⟩ <;>
    simp [last_train_metrics, last_valid_metrics, List.getLast?_concat]

lemma on_epoch_end_lengths (hm hv : Bool) (epoch : ℤ) (sl : ℚ)
    (ms : List (Tensor → Tensor → ℚ)) (lm : List ℚ) (es : EpochState)
    (rs st : RunState) (row : List Stat)
    (h : on_epoch_end hm hv epoch sl ms lm es rs = Except.ok (st, row)) :
    st.train_metrics.length = rs.train_metrics.length + (if hm then 1 else 0) ∧
    st.valid_metrics.length = rs.valid_metrics.length +
      (if hm && hv then 1 else 0) := by
  unfold on_epoch_end at h
  cases hsh : statsHead hv epoch sl lm with
  | error e => rw [hsh] at h; exact absurd h (by simp)
  | ok s1 =>
      rw [hsh] at h
      cases hm with
      | false =>
          simp at h
          rw [← h.1]
          simp
      | true =>
          simp only [if_pos] at h
          cases hsl : statsLoop hv
              (ms.map fun m_fn => m_fn (torch_stack es.out) (torch_stack es.y))
              lm.tail ms.length with
          | error e => rw [hsl] at h; exact absurd h (by simp)
          | ok sm =>
              rw [hsl] at h
              simp at h
              rw [← h.1]
              cases hv <;> simp

lemma runEpochs_lengths (hv : Bool) (ms : List (Tensor → Tensor → ℚ))
    (ess : ℕ → EpochState) (lms : ℕ → List ℚ) (losses : ℕ → ℚ) (e : ℕ)
    (st : RunState) (h : runEpochs hv ms ess lms losses e = Except.ok st) :
    st.train_metrics.length = (if has_metrics_of ms then e else 0) ∧
    st.valid_metrics.length = (if has_metrics_of ms && hv then e else 0) := by
  induction e generalizing st with
  | zero =>
      simp [runEpochs] at h
      rw [← h]
      simp
  | succ e ih =>
      rw [runEpochs] at h
      cases hre : runEpochs hv ms ess lms losses e with
      | error err => rw [hre] at h; exact absurd h (by simp)
      | ok rs =>
          rw [hre] at h
          dsimp only at h
          cases hoe : on_epoch_end (has_metrics_of ms) hv (e : ℤ) (losses e)
              ms (lms e) (ess e) rs with
          | error err => rw [hoe] at h; exact absurd h (by simp)
          | ok p =>
              rw [hoe] at h
              simp at h
              obtain ⟨ih1, ih2⟩ := ih rs hre
              obtain ⟨l1, l2⟩ :=
                on_epoch_end_lengths (has_metrics_of ms) hv (e : ℤ) (losses e)
                  ms (lms e) (ess e) rs p.1 p.2 hoe
              rw [← h, l1, l2, ih1, ih2]
              cases has_metrics_of ms <;> cases hv <;> simp

/-- Claim C2 counterexample: in a run with no metrics configured
(`metrics = []`), one call to `on_epoch_end` appends nothing, so afterwards the
training-metric history has length `0`, not `1`. -/
theorem epoch_history_lengths_counterexample :
    ∃ st : RunState,
      runEpochs false [] (fun _ => on_epoch_begin) (fun _ => []) (fun _ => 0) 1 =
        Except.ok st ∧ st.train_metrics.length ≠ 1 := by
  refine ⟨⟨[], []⟩, by decide, by decide⟩

/-- Claim C2 (amended): for every run with metrics configured and every epoch
count `e`, after the `e`-th successful call to `on_epoch_end` the
training-metric history has length `e` and, if a validation split exists, the
validation-metric history also has length `e`; the two histories have equal
length whenever both exist. -/
theorem epoch_history_lengths (hv : Bool) (ms : List (Tensor → Tensor → ℚ))
    (ess : ℕ → EpochState) (lms : ℕ → List ℚ) (losses : ℕ → ℚ) (e : ℕ)
    (st : RunState) (h : runEpochs hv ms ess lms losses e = Except.ok st)
    (hmet : ms ≠ []) :
    st.train_metrics.length = e ∧
    (hv = true → st.valid_metrics.length = e ∧
      st.train_metrics.length = st.valid_metrics.length) := by
  obtain ⟨l1, l2⟩ := runEpochs_lengths hv ms ess lms losses e st h
  have hm : has_metrics_of ms = true := by
    simpa [has_metrics_of, List.length_pos] using hmet
  rw [hm] at l1 l2
  refine ⟨by simpa using l1, fun hvt => ?_⟩
  rw [hvt] at l2
  simp at l1 l2
  exact ⟨l2, by omega⟩

/-- Claim C2 witness: a concrete two-epoch run with one metric and a
validation split reaches the state claimed by `epoch_history_lengths`. -/
theorem epoch_history_lengths_witness :
    runEpochs true [fun o _ => o.headD 0] (fun _ => ⟨[[2]], [[1]]⟩)
        (fun _ => [2, 3]) (fun _ => 1) 2 =
      Except.ok ⟨[[1], [1]], [[3], [3]]⟩ ∧
    (⟨[[1], [1]], [[3], [3]]⟩ : RunState).train_metrics.length = 2 ∧
    (true = true →
      (⟨[[1], [1]], [[3], [3]]⟩ : RunState).valid_metrics.length = 2 ∧
      (⟨[[1], [1]], [[3], [3]]⟩ : RunState).train_metrics.length =
        (⟨[[1], [1]], [[3], [3]]⟩ : RunState).valid_metrics.length) := by
  have h : runEpochs true [fun o _ => o.headD 0] (fun _ => ⟨[[2]], [[1]]⟩)
      (fun _ => [2, 3]) (fun _ => 1) 2 =
      Except.ok ⟨[[1], [1]], [[3], [3]]⟩ := by decide
  exact ⟨h, epoch_history_lengths true [fun o _ => o.headD 0]
    (fun _ => ⟨[[2]], [[1]]⟩) (fun _ => [2, 3]) (fun _ => 1) 2
    ⟨[[1], [1]], [[3], [3]]⟩ h (by simp)⟩

/-- Claim C3: with metrics configured, `on_epoch_end` appends to the training
history exactly one vector, obtained by applying each metric function exactly
once to the pair of stacked accumulated outputs and targets; the stacked
tensors' flattened data are the concatenations of the per-batch data, and the
appended vector has one scalar per metric. -/
theorem train_metrics_single_evaluation (hv : Bool) (epoch : ℤ) (sl : ℚ)
    (ms : List (Tensor → Tensor → ℚ)) (lm : List ℚ) (es : EpochState)
    (rs st : RunState) (row : List Stat)
    (h : on_epoch_end true hv epoch sl ms lm es rs = Except.ok (st, row)) :
    st.train_metrics = rs.train_metrics ++
      [ms.map fun m_fn => m_fn (torch_stack es.out) (torch_stack es.y)] ∧
    torch_stack es.out = es.out.flatten ∧
    torch_stack es.y = es.y.flatten ∧
    (ms.map fun m_fn => m_fn (torch_stack es.out) (torch_stack es.y)).length =
      ms.length := by
  refine ⟨?_, rfl, rfl, List.length_map _ _⟩
  unfold on_epoch_end at h
  cases hsh : statsHead hv epoch sl lm with
  | error e => rw [hsh] at h; exact absurd h (by simp)
  | ok s1 =>
      rw [hsh] at h
      simp only [if_pos] at h
      cases hsl : statsLoop hv
          (ms.map fun m_fn => m_fn (torch_stack es.out) (torch_stack es.y))
          lm.tail ms.length with
      | error e => rw [hsl] at h; exact absurd h (by simp)
      | ok sm =>
          rw [hsl] at h
          simp at h
          rw [← h.1]

/-- Claim C3 witness: a concrete epoch end with one metric function evaluates
it once on the concatenated batches. -/
theorem train_metrics_single_evaluation_witness :
    on_epoch_end true false 0 1 [fun o _ => o.headD 0] []
        ⟨[[1], [2]], [[3], [4]]⟩ ⟨[], []⟩ =
      Except.ok (⟨[[3]], []⟩, [Stat.int 0, Stat.float 1, Stat.float 3]) ∧
    (⟨[[3]], []⟩ : RunState).train_metrics =
      (⟨[], []⟩ : RunState).train_metrics ++
        [[fun (o _ : Tensor) => o.headD 0].map fun m_fn =>
          m_fn (torch_stack [[3], [4]]) (torch_stack [[1], [2]])] := by
  have h : on_epoch_end true false 0 1 [fun o _ => o.headD 0] []
      ⟨[[1], [2]], [[3], [4]]⟩ ⟨[], []⟩ =
      Except.ok (⟨[[3]], []⟩, [Stat.int 0, Stat.float 1, Stat.float 3]) := by
    decide
  exact ⟨h, (train_metrics_single_evaluation false 0 1
    [fun o _ => o.headD 0] [] ⟨[[1], [2]], [[3], [4]]⟩ ⟨[], []⟩
    ⟨[[3]], []⟩ [Stat.int 0, Stat.float 1, Stat.float 3] h).1⟩

/-- Claim C6: in the stats-row formatter, `None` renders as the sentinel
`#na#`, an integer renders as its plain decimal string (`3` as `"3"`), every
other numeric renders fixed to six decimal places (`0.123456789` as
`"0.123457"`), and the elapsed epoch time is appended as the final column. -/
theorem stats_row_formatting :
    formatStat Stat.none = "#na#" ∧
    (∀ z : ℤ, formatStat (Stat.int z) = toString z) ∧
    formatStat (Stat.int 3) = "3" ∧
    (∀ q : ℚ, formatStat (Stat.float q) = formatFixed6 q) ∧
    formatStat (Stat.float 0.123456789) = "0.123457" ∧
    formatStat (Stat.float 2) = "2.000000" ∧
    (∀ (names : List String) (stats : List Stat) (elapsed : String),
      (format_stats names stats elapsed).getLast? = some elapsed) := by
  refine ⟨rfl, fun z => rfl, by decide, fun q => rfl, ?_, ?_,
    fun n s e => List.getLast?_concat _⟩
  · show formatFixed6 0.123456789 = "0.123457"
    have hq : ((0.123456789 : ℚ) * 1000000) = 123456789 / 1000 := by norm_num
    have hf : ⌊(123456789 : ℚ) / 1000⌋ = 123456 := by
      rw [Int.floor_eq_iff]
      norm_num
    have hr : roundHalfEven ((0.123456789 : ℚ) * 1000000) = 123457 := by
      rw [roundHalfEven, hq, hf, if_neg (by norm_num), if_pos (by norm_num)]
      norm_num
    rw [formatFixed6, hr, if_neg (by norm_num)]
    decide
  · show formatFixed6 2 = "2.000000"
    have hq : ((2 : ℚ) * 1000000) = 2000000 := by norm_num
    have hf : ⌊(2000000 : ℚ)⌋ = 2000000 := by
      rw [Int.floor_eq_iff]
      norm_num
    have hr : roundHalfEven ((2 : ℚ) * 1000000) = 2000000 := by
      rw [roundHalfEven, hq, hf, if_pos (by norm_num)]
    rw [formatFixed6, hr, if_neg (by norm_num)]
    decide

lemma pyGet_error (l : List ℚ) (i : ℕ) (e : String)
    (h : pyGet l i = Except.error e) :
    e = "IndexError: list index out of range" := by
  unfold pyGet at h
  cases hl : l[i]? with
  | some v => rw [hl] at h; exact absurd h (by simp)
  | none => rw [hl] at h; dsimp only at h; injection h with h2; exact h2.symm

lemma listMin_error (l : List ℚ) (e : String) (h : listMin l = Except.error e) :
    e = "ValueError: min() arg is an empty sequence" := by
  cases l with
  | nil => injection h with h2; exact h2.symm
  | cons x xs => exact absurd h (by simp [listMin])

lemma listMax_error (l : List ℚ) (e : String) (h : listMax l = Except.error e) :
    e = "ValueError: max() arg is an empty sequence" := by
  cases l with
  | nil => injection h with h2; exact h2.symm
  | cons x xs => exact absurd h (by simp [listMax])

lemma panelSeries_error (hist : List (List ℚ)) (i : ℕ) :
    ∀ e : String, panelSeries hist i = Except.error e →
      e = "IndexError: list index out of range" := by
  induction hist with
  | nil => exact fun e h => absurd h (by simp [panelSeries])
  | cons met rest ih =>
      intro e h
      rw [panelSeries] at h
      cases hg : pyGet met i with
      | error e2 =>
          rw [hg] at h; dsimp only at h; injection h with h2
          rw [← h2]; exact pyGet_error met i e2 hg
      | ok v =>
          rw [hg] at h; dsimp only at h
          cases hp : panelSeries rest i with
          | error e2 =>
              rw [hp] at h; dsimp only at h; injection h with h2
              rw [← h2]; exact ih e2 hp
          | ok vs => rw [hp] at h; exact absurd h (by simp)

lemma y_bounds_error (a b : List ℚ) (e : String)
    (h : y_bounds a b = Except.error e) :
    e = "ValueError: min() arg is an empty sequence" ∨
    e = "ValueError: max() arg is an empty sequence" := by
  unfold y_bounds at h
  cases h1 : listMin a with
  | error e1 =>
      rw [h1] at h; dsimp only at h; injection h with h2
      rw [← h2]; exact Or.inl (listMin_error a e1 h1)
  | ok mtr =>
      rw [h1] at h; dsimp only at h
      cases h2 : listMin b with
      | error e2 =>
          rw [h2] at h; dsimp only at h; injection h with h3
          rw [← h3]; exact Or.inl (listMin_error b e2 h2)
      | ok mvl =>
          rw [h2] at h; dsimp only at h
          cases h3 : listMax a with
          | error e3 =>
              rw [h3] at h; dsimp only at h; injection h with h4
              rw [← h4]; exact Or.inr (listMax_error a e3 h3)
          | ok str =>
              rw [h3] at h; dsimp only at h
              cases h4 : listMax b with
              | error e4 =>
                  rw [h4] at h; dsimp only at h; injection h with h5
                  rw [← h5]; exact Or.inr (listMax_error b e4 h4)
              | ok svl => rw [h4] at h; exact absurd h (by simp)

lemma plotPanel_error (tm vm : List (List ℚ)) (n i : ℕ) (e : String)
    (h : plotPanel tm vm n i = Except.error e) :
    e = "IndexError: list index out of range" ∨
    e = "ValueError: min() arg is an empty sequence" ∨
    e = "ValueError: max() arg is an empty sequence" := by
  unfold plotPanel at h
  cases h1 : panelSeries tm i with
  | error e1 =>
      rw [h1] at h; dsimp only at h; injection h with h2
      rw [← h2]; exact Or.inl (panelSeries_error tm i e1 h1)

  | ok tr =>
      rw [h1] at h; dsimp only at h
      cases h2 : (if 0 < vm.length then panelSeries vm i else Except.ok []) with
      | error e2 =>
          rw [h2] at h; dsimp only at h; injection h with h3
          rw [← h3]
          by_cases hv : 0 < vm.length
          · rw [if_pos hv] at h2; exact Or.inl (panelSeries_error vm i e2 h2)
          · rw [if_neg hv] at h2; exact absurd h2 (by simp)
      | ok vl =>
          rw [h2] at h; dsimp only at h
          cases h3 : y_bounds tr vl with
          | error e3 =>
              rw [h3] at h; dsimp only at h; injection h with h4
              rw [← h4]; exact Or.inr (y_bounds_error tr vl e3 h3)
          | ok yb => rw [h3] at h; exact absurd h (by simp)

lemma mapE_error {α : Type _} (f : ℕ → Except String α) (l : List ℕ) (e : String)
    (h : mapE f l = Except.error e) : ∃ i, f i = Except.error e := by
  induction l with
  | nil => exact absurd h (by simp [mapE])
  | cons i rest ih =>
      simp only [mapE] at h
      cases h1 : f i with
      | error e1 =>
          rw [h1] at h; dsimp only at h; injection h with h2
          exact ⟨i, by rw [h1, h2]⟩
      | ok v =>
          rw [h1] at h; dsimp only at h
          cases h2 : mapE f rest with
          | error e2 =>
              rw [h2] at h; dsimp only at h; injection h with h3
              exact ih (h3 ▸ h2)
          | ok vs => rw [h2] at h; exact absurd h (by simp)

lemma mapE_get {α : Type _} (f : ℕ → Except String α) (l : List ℕ) (res : List α)
    (h : mapE f l = Except.ok res) (j : ℕ) (v : α) (hv : res[j]? = some v) :
    ∃ i, l[j]? = some i ∧ f i = Except.ok v := by
  induction l generalizing res j with
  | nil =>
      simp [mapE] at h
      rw [h] at hv
      exact absurd hv (by simp)
  | cons i rest ih =>
      simp only [mapE] at h
      cases h1 : f i with
      | error e1 => rw [h1] at h; exact absurd h (by simp)
      | ok a =>
          rw [h1] at h; dsimp only at h
          cases h2 : mapE f rest with
          | error e2 => rw [h2] at h; exact absurd h (by simp)
          | ok vs =>
              rw [h2] at h; dsimp only at h
              injection h with h3
              rw [← h3] at hv
              cases j with
              | zero =>
                  simp at hv
                  exact ⟨i, by simp, by rw [h1, hv]⟩
              | succ j2 =>
                  simp at hv
                  obtain ⟨i2, hi2, hfi⟩ := ih vs h2 j2 hv
                  exact ⟨i2, by simpa using hi2, hfi⟩

lemma range_getElem?_some (K i x : ℕ) (h : (List.range K)[i]? = some x) :
    x = i := by
  rcases lt_or_ge i K with hlt | hge
  · rw [List.getElem?_range hlt] at h; injection h with h2; exact h2.symm
  · rw [List.getElem?_eq_none (by simpa using hge)] at h
    exact absurd h (by simp)

lemma foldl_min_cons (a y : ℚ) (ys : List ℚ) :
    List.foldl min a (y :: ys) = min a (List.foldl min y ys) := by
  induction ys generalizing a y with
  | nil => simp
  | cons z zs ih =>
      calc List.foldl min a (y :: z :: zs)
          = List.foldl min (min a y) (z :: zs) := by rw [List.foldl_cons]
        _ = min (min a y) (List.foldl min z zs) := ih (min a y) z
        _ = min a (min y (List.foldl min z zs)) := min_assoc a y _
        _ = min a (List.foldl min y (z :: zs)) := by rw [ih y z]

lemma foldl_max_cons (a y : ℚ) (ys : List ℚ) :
    List.foldl max a (y :: ys) = max a (List.foldl max y ys) := by
  induction ys generalizing a y with
  | nil => simp
  | cons z zs ih =>
      calc List.foldl max a (y :: z :: zs)
          = List.foldl max (max a y) (z :: zs) := by rw [List.foldl_cons]
        _ = max (max a y) (List.foldl max z zs) := ih (max a y) z
        _ = max a (max y (List.foldl max z zs)) := max_assoc a y _
        _ = max a (List.foldl max y (z :: zs)) := by rw [ih y z]

lemma listMin_append (a b : List ℚ) (ma mb : ℚ)
    (ha : listMin a = Except.ok ma) (hb : listMin b = Except.ok mb) :
    listMin (a ++ b) = Except.ok (min ma mb) := by
  cases a with
  | nil => exact absurd ha (by simp [listMin])
  | cons x xs =>
      cases b with
      | nil => exact absurd hb (by simp [listMin])
      | cons y ys =>
          simp only [listMin, Except.ok.injEq] at ha hb
          rw [List.cons_append]
          simp only [listMin, Except.ok.injEq]
          rw [List.foldl_append, ha, foldl_min_cons, hb]

lemma listMax_append (a b : List ℚ) (ma mb : ℚ)
    (ha : listMax a = Except.ok ma) (hb : listMax b = Except.ok mb) :
    listMax (a ++ b) = Except.ok (max ma mb) := by
  cases a with
  | nil => exact absurd ha (by simp [listMax])
  | cons x xs =>
      cases b with
      | nil => exact absurd hb (by simp [listMax])
      | cons y ys =>
          simp only [listMax, Except.ok.injEq] at ha hb
          rw [List.cons_append]
          simp only [listMax, Except.ok.injEq]
          rw [List.foldl_append, ha, foldl_max_cons, hb]

lemma listMin_ok_of_ne_nil (l : List ℚ) (hl : l ≠ []) :
    ∃ m, listMin l = Except.ok m := by
  cases l with
  | nil => exact absurd rfl hl
  | cons x xs => exact ⟨xs.foldl min x, rfl⟩

lemma panelSeries_ok_zero (hist : List (List ℚ)) (h : ∀ met ∈ hist, met ≠ []) :
    ∃ l, panelSeries hist 0 = Except.ok l ∧ l.length = hist.length := by
  induction hist with
  | nil => exact ⟨[], rfl, rfl⟩
  | cons met rest ih =>
      obtain ⟨l, hl, hlen⟩ := ih (fun m hm => h m (List.mem_cons_of_mem _ hm))
      have hm : met ≠ [] := h met (List.mem_cons_self _ _)
      cases met with
      | nil => exact absurd rfl hm
      | cons v vs =>
          refine ⟨v :: l, ?_, by simp [hlen]⟩
          simp [panelSeries, pyGet, hl]

lemma y_bounds_empty_valid (l : List ℚ) (hl : l ≠ []) :
    y_bounds l [] = Except.error "ValueError: min() arg is an empty sequence" := by
  obtain ⟨m, hm⟩ := listMin_ok_of_ne_nil l hl
  unfold y_bounds
  rw [hm]
  rfl

/-- Claim C8: calling `plot` with an empty training-metric history fails with
the "no records" error, and with a non-empty history that error is never
raised (other failures remain possible, but not this one). -/
theorem plot_no_records :
    (∀ (vm : List (List ℚ)) (n : ℕ),
      plot [] vm n = Except.error "ValueError: No records to plot.") ∧
    (∀ (tm vm : List (List ℚ)) (n : ℕ), tm ≠ [] →
      plot tm vm n ≠ Except.error "ValueError: No records to plot.") := by
  constructor
  · intro vm n; rfl
  · intro tm vm n htm hc
    unfold plot at hc
    rw [if_neg (by simpa [List.length_eq_zero] using htm)] at hc
    by_cases hassert : 0 < vm.length ∧
        (tm.headD []).length ≠ (vm.headD []).length
    · rw [if_pos hassert] at hc
      injection hc with h2
      exact absurd h2 (by decide)
    · rw [if_neg hassert] at hc
      obtain ⟨i, hi⟩ := mapE_error _ _ _ hc
      rcases plotPanel_error tm vm n i _ hi with h | h | h <;>
        exact absurd h (by decide)

/-- Claim C8 witness: a concrete one-epoch history does not raise the
"no records" error. -/
theorem plot_no_records_witness :
    ([[(0.5 : ℚ)]] : List (List ℚ)) ≠ [] ∧
    plot [[(0.5 : ℚ)]] [[(0.6 : ℚ)]] 1 ≠
      Except.error "ValueError: No records to plot." :=
  ⟨by simp, plot_no_records.2 [[(0.5 : ℚ)]] [[(0.6 : ℚ)]] 1 (by simp)⟩

/-- Claim C7: for every successful `plot`, each panel's x-axis bounds are
`(-0.05, n_epochs - 0.95)` and its y-axis bounds are the observed minimum and
maximum over the training and validation series, clamped so the interval
includes at least `[-0.05, 1.05]` and padded by `0.05` on each side. -/
theorem panel_bounds (tm vm : List (List ℚ)) (n i : ℕ)
    (panels : List ((ℚ × ℚ) × (ℚ × ℚ))) (xb yb : ℚ × ℚ) (tr_m vl_m : List ℚ)
    (hp : plot tm vm n = Except.ok panels)
    (hi : panels[i]? = some (xb, yb))
    (htr : panelSeries tm i = Except.ok tr_m)
    (hvl : (if 0 < vm.length then panelSeries vm i else Except.ok []) =
      Except.ok vl_m) :
    xb = (-0.05, (n : ℚ) - 0.95) ∧
    ∃ m s, listMin (tr_m ++ vl_m) = Except.ok m ∧
      listMax (tr_m ++ vl_m) = Except.ok s ∧
      yb = (min m (-0.05) - 0.05, max s 1.05 + 0.05) ∧
      yb.1 ≤ m - 0.05 ∧ yb.1 ≤ -0.05 ∧ s + 0.05 ≤ yb.2 ∧ 1.05 ≤ yb.2 := by
  unfold plot at hp
  by_cases h0 : tm.length = 0
  · rw [if_pos h0] at hp; exact absurd hp (by simp)
  rw [if_neg h0] at hp
  by_cases hassert : 0 < vm.length ∧
      (tm.headD []).length ≠ (vm.headD []).length
  · rw [if_pos hassert] at hp; exact absurd hp (by simp)
  rw [if_neg hassert] at hp
  obtain ⟨i2, hrange, hpp⟩ := mapE_get _ _ _ hp i (xb, yb) hi
  rw [range_getElem?_some _ _ _ hrange] at hpp
  unfold plotPanel at hpp
  rw [htr] at hpp; dsimp only at hpp
  rw [hvl] at hpp; dsimp only at hpp
  cases hyb : y_bounds tr_m vl_m with
  | error e => rw [hyb] at hpp; exact absurd hpp (by simp)
  | ok yb2 =>
      rw [hyb] at hpp; dsimp only at hpp
      simp only [Except.ok.injEq, Prod.mk.injEq] at hpp
      obtain ⟨hx, hy⟩ := hpp
      unfold y_bounds at hyb
      cases h1 : listMin tr_m with
      | error e => rw [h1] at hyb; exact absurd hyb (by simp)
      | ok mtr =>
          rw [h1] at hyb; dsimp only at hyb
          cases h2 : listMin vl_m with
          | error e => rw [h2] at hyb; exact absurd hyb (by simp)
          | ok mvl =>
              rw [h2] at hyb; dsimp only at hyb
              cases h3 : listMax tr_m with
              | error e => rw [h3] at hyb; exact absurd hyb (by simp)
              | ok str =>
                  rw [h3] at hyb; dsimp only at hyb
                  cases h4 : listMax vl_m with
                  | error e => rw [h4] at hyb; exact absurd hyb (by simp)
                  | ok svl =>
                      rw [h4] at hyb; dsimp only at hyb
                      simp only [Except.ok.injEq] at hyb
                      refine ⟨by rw [← hx]; rfl, min mtr mvl, max str svl,
                        listMin_append tr_m vl_m mtr mvl h1 h2,
                        listMax_append tr_m vl_m str svl h3 h4, ?_, ?_, ?_, ?_, ?_⟩
                      · rw [← hy, ← hyb, min_comm, max_comm]
                      · rw [← hy, ← hyb]
                        have := min_le_right (-0.05 : ℚ) (min mtr mvl)
                        dsimp only
                        linarith
                      · rw [← hy, ← hyb]
                        have := min_le_left (-0.05 : ℚ) (min mtr mvl)
                        dsimp only
                        linarith
                      · rw [← hy, ← hyb]
                        have := le_max_right (1.05 : ℚ) (max str svl)
                        dsimp only
                        linarith
                      · rw [← hy, ← hyb]
                        have := le_max_left (1.05 : ℚ) (max str svl)
                        dsimp only
                        linarith

/-- Claim C7 witness: a concrete one-epoch, one-metric plot with a validation
series yields the claimed panel bounds. -/
theorem panel_bounds_witness :
    plot [[(0.5 : ℚ)]] [[(0.6 : ℚ)]] 1 =
      Except.ok [(((-0.05 : ℚ), ((1 : ℕ) : ℚ) - 0.95),
        ((min (-0.05) (min (0.5 : ℚ) 0.6) - 0.05 : ℚ),
         (max 1.05 (max (0.5 : ℚ) 0.6) + 0.05 : ℚ)))] ∧
    (((-0.05 : ℚ), ((1 : ℕ) : ℚ) - 0.95) =
      ((-0.05 : ℚ), ((1 : ℕ) : ℚ) - 0.95) ∧
    ∃ m s, listMin ([(0.5 : ℚ)] ++ [(0.6 : ℚ)]) = Except.ok m ∧
      listMax ([(0.5 : ℚ)] ++ [(0.6 : ℚ)]) = Except.ok s ∧
      (((min (-0.05) (min (0.5 : ℚ) 0.6) - 0.05 : ℚ),
        (max 1.05 (max (0.5 : ℚ) 0.6) + 0.05 : ℚ)) : ℚ × ℚ) =
        (min m (-0.05) - 0.05, max s 1.05 + 0.05) ∧
      ((min (-0.05) (min (0.5 : ℚ) 0.6) - 0.05 : ℚ),
        (max 1.05 (max (0.5 : ℚ) 0.6) + 0.05 : ℚ)).1 ≤ m - 0.05 ∧
      ((min (-0.05) (min (0.5 : ℚ) 0.6) - 0.05 : ℚ),
        (max 1.05 (max (0.5 : ℚ) 0.6) + 0.05 : ℚ)).1 ≤ -0.05 ∧
      s + 0.05 ≤ ((min (-0.05) (min (0.5 : ℚ) 0.6) - 0.05 : ℚ),
        (max 1.05 (max (0.5 : ℚ) 0.6) + 0.05 : ℚ)).2 ∧
      (1.05 : ℚ) ≤ ((min (-0.05) (min (0.5 : ℚ) 0.6) - 0.05 : ℚ),
        (max 1.05 (max (0.5 : ℚ) 0.6) + 0.05 : ℚ)).2) := by
  have hp : plot [[(0.5 : ℚ)]] [[(0.6 : ℚ)]] 1 =
      Except.ok [(((-0.05 : ℚ), ((1 : ℕ) : ℚ) - 0.95),
        ((min (-0.05) (min (0.5 : ℚ) 0.6) - 0.05 : ℚ),
         (max 1.05 (max (0.5 : ℚ) 0.6) + 0.05 : ℚ)))] := rfl
  exact ⟨hp, panel_bounds [[(0.5 : ℚ)]] [[(0.6 : ℚ)]] 1 0 _ _ _
    [(0.5 : ℚ)] [(0.6 : ℚ)] hp rfl rfl rfl⟩

/-- Claim C10: in a state with a non-empty training history whose entries are
non-empty (metrics configured) and an empty validation history (no validation
split), `plot` fails: the y-bound computation takes the minimum of the empty
validation series, even though the no-records precondition is satisfied. -/
theorem plot_empty_validation (tm : List (List ℚ)) (n : ℕ)
    (h1 : tm ≠ []) (h2 : ∀ met ∈ tm, met ≠ []) :
    plot tm [] n = Except.error "ValueError: min() arg is an empty sequence" ∧
    plot tm [] n ≠ Except.error "ValueError: No records to plot." := by
  have hmain : plot tm [] n =
      Except.error "ValueError: min() arg is an empty sequence" := by
    unfold plot
    rw [if_neg (by simpa [List.length_eq_zero] using h1)]
    rw [if_neg (by simp)]
    obtain ⟨l, hl, hlen⟩ := panelSeries_ok_zero tm h2
    have hlne : l ≠ [] := by
      intro hn
      rw [hn] at hlen
      exact h1 (List.length_eq_zero.mp hlen.symm)
    have hpp : plotPanel tm [] n 0 =
        Except.error "ValueError: min() arg is an empty sequence" := by
      unfold plotPanel
      rw [hl]
      dsimp only
      rw [if_neg (by simp)]
      dsimp only
      rw [y_bounds_empty_valid l hlne]
    cases tm with
    | nil => exact absurd rfl h1
    | cons t0 rest =>
        have ht0 : t0 ≠ [] := h2 t0 (List.mem_cons_self _ _)
        obtain ⟨k, hk⟩ : ∃ k, t0.length = k + 1 := by
          cases t0 with
          | nil => exact absurd rfl ht0
          | cons v vs => exact ⟨vs.length, rfl⟩
        simp only [List.headD_cons]
        rw [hk, List.range_succ_eq_map]
        simp only [mapE]
        rw [hpp]
  refine ⟨hmain, ?_⟩
  rw [hmain]
  intro hc
  injection hc with h3
  exact absurd h3 (by decide)

/-- Claim C10 witness: a concrete one-epoch, one-metric history with no
validation metrics makes `plot` fail with the empty-sequence error. -/
theorem plot_empty_validation_witness :
    ([[(0.5 : ℚ)]] : List (List ℚ)) ≠ [] ∧
    (∀ met ∈ ([[(0.5 : ℚ)]] : List (List ℚ)), met ≠ []) ∧
    (plot [[(0.5 : ℚ)]] [] 3 =
        Except.error "ValueError: min() arg is an empty sequence" ∧
      plot [[(0.5 : ℚ)]] [] 3 ≠
        Except.error "ValueError: No records to plot.") := by
  refine ⟨by simp, by simp, plot_empty_validation [[(0.5 : ℚ)]] 3 (by simp) (by simp)⟩

end TrainMetricsRecorder
